import Mathlib

/-! SystemMonitor: sampling and delta engine

A shallow embedding of `src/system_monitor.cpp` (class `SystemMonitor`):
`loadConfig`, `collectMetrics`, `getCpuMetrics` and `getMemoryMetrics`.

Modelling conventions.

* `unsigned long long` values are natural numbers below `2 ^ 64`; every
  addition and subtraction of the source is reduced modulo `2 ^ 64`.
* The `double` percentage `100.0 * nonIdleDiff / totalDiff` is the exact
  rational `100 * nonIdleDiff / totalDiff`.
* A C++ exception leaving a function is the result `none`.
* The function-local `static` variables of `getCpuMetrics` are the fields of
  `CpuState`, passed in and returned explicitly.
* One call reads one text: the content of the counter file is an argument,
  and every scan of the file within the call sees that text. A file that
  cannot be opened behaves as the empty text: every `std::getline` fails.
* A requested core id is an integer; `std::to_string` gives its decimal text.
-/

namespace SystemMonitor

/-! ## Text primitives -/

/-- The word size of `unsigned long long`. -/
def U64 : Nat := 2 ^ 64

/-- Addition of `unsigned long long`. -/
def add64 (a b : Nat) : Nat := (a + b) % U64

/-- Subtraction of `unsigned long long`. -/
def sub64 (a b : Nat) : Nat := (a % U64 + (U64 - b % U64)) % U64

/-- The classification `isspace` of the C locale, used by stream extraction. -/
def isSpace (c : Char) : Bool :=
  c == ' ' || c == '\t' || c == '\n' || c == '\x0b' || c == '\x0c' || c == '\r'

/-- Worker of `getlines`: `cur` holds the current line, reversed. -/
def getlinesAux : List Char → List Char → List (List Char)
  | [], cur => if cur.isEmpty then [] else [cur.reverse]
  | c :: cs, cur =>
    if c == '\n' then cur.reverse :: getlinesAux cs [] else getlinesAux cs (c :: cur)

/-- The successive results of `std::getline` on a stream holding `s`: the
text is cut at every newline, and a last line without a newline is returned
when it is not empty. -/
def getlines (s : String) : List (List Char) := getlinesAux s.data []

/-- Worker of `tokens`: `cur` holds the current token, reversed. -/
def tokensAux : List Char → List Char → List (List Char)
  | [], cur => if cur.isEmpty then [] else [cur.reverse]
  | c :: cs, cur =>
    if isSpace c then
      (if cur.isEmpty then tokensAux cs [] else cur.reverse :: tokensAux cs [])
    else tokensAux cs (c :: cur)

/-- The range `istream_iterator<std::string>` over a line: its maximal runs
of characters that are not white space. -/
def tokens (line : List Char) : List (List Char) := tokensAux line []

/-- The value of a run of decimal digits. -/
def digitsValue (ds : List Char) : Nat :=
  ds.foldl (fun acc c => 10 * acc + (c.toNat - '0'.toNat)) 0

/-- The text after an optional sign, and whether the sign is a minus. -/
def splitSign : List Char → Bool × List Char
  | '-' :: r => (true, r)
  | '+' :: r => (false, r)
  | s => (false, s)

/-- The function `std::stoull(str)` in base 10: leading white space, an
optional sign, then the longest run of digits; what follows is ignored.
`none` stands for the exception (`std::invalid_argument` when there is no
digit, `std::out_of_range` when the digits exceed `ULLONG_MAX`); a minus
sign negates the value in `unsigned long long`. -/
def stoull (str : List Char) : Option Nat :=
  let sg := splitSign (str.dropWhile isSpace)
  let ds := sg.2.takeWhile Char.isDigit
  if ds.isEmpty then none
  else if U64 ≤ digitsValue ds then none
  else some (if sg.1 then sub64 0 (digitsValue ds) else digitsValue ds)

/-- The test `line.substr(0, p.size()) == p`. -/
def hasPrefix (p line : List Char) : Bool := line.take p.length == p

/-! ## Association maps

`std::unordered_map` and the JSON objects built by the collector are lists of
key-value pairs with at most one pair per key. -/

/-- The assignment `m[k] = v`. -/
def mapSet {κ ν : Type} [DecidableEq κ] (m : List (κ × ν)) (k : κ) (v : ν) : List (κ × ν) :=
  (k, v) :: m.filter (fun e => !decide (e.1 = k))

/-- The lookup `m.find(k)`, by the key's decidable equality. -/
def mapFind {κ ν : Type} [DecidableEq κ] (m : List (κ × ν)) (k : κ) : Option ν :=
  match m with
  | [] => none
  | e :: r => if e.1 = k then some e.2 else mapFind r k

/-! ## CPU metrics -/

/-- One reading of a counter line: the sums `total` and `nonIdle`. -/
structure Sample where
  total : Nat
  nonIdle : Nat
deriving DecidableEq, Repr

/-- The function-local statics of `getCpuMetrics`: `prevTotal` and
`prevNonIdle` of the aggregate block, `prevCoreTotals` and
`prevCoreNonIdles` of the per-core block. -/
structure CpuState where
  prevTotal : Nat
  prevNonIdle : Nat
  prevCoreTotals : List (Int × Nat)
  prevCoreNonIdles : List (Int × Nat)
deriving DecidableEq, Repr

/-- The statics as initialised at program start. -/
def CpuState.fresh : CpuState := ⟨0, 0, [], []⟩

/-- The JSON value `cpuData`: the member `total` and the object `cores`. The
key of `cores` is the core id itself; the source uses its decimal text
`std::to_string(coreId)`, which determines the id. -/
structure CpuData where
  total : Option ℚ
  cores : List (Int × ℚ)
deriving DecidableEq

/-- The value `cpuData` before any assignment. -/
def CpuData.empty : CpuData := ⟨none, []⟩

/-- The expression `(totalDiff > 0) ? (100.0 * nonIdleDiff / totalDiff) : 0.0`. -/
def usage (totalDiff nonIdleDiff : Nat) : ℚ :=
  if 0 < totalDiff then 100 * (nonIdleDiff : ℚ) / (totalDiff : ℚ) else 0

/-- The block guarded by `tokens.size() >= 8`: the seven conversions by
`std::stoull` and the two sums. `none` is an exception of `std::stoull`,
`some none` a line with fewer than eight tokens. -/
def parseCounters (toks : List (List Char)) : Option (Option Sample) :=
  if 8 ≤ toks.length then do
    let user ← stoull (toks.getD 1 [])
    let nice ← stoull (toks.getD 2 [])
    let system ← stoull (toks.getD 3 [])
    let idle ← stoull (toks.getD 4 [])
    let iowait ← stoull (toks.getD 5 [])
    let irq ← stoull (toks.getD 6 [])
    let softirq ← stoull (toks.getD 7 [])
    pure (some ⟨(user + nice + system + idle + iowait + irq + softirq) % U64,
      (user + nice + system + irq + softirq) % U64⟩)
  else pure none

/-- The reading of the aggregate entity in one call: the first line of the
text, when it starts with `cpu`. -/
def aggSample (lines : List (List Char)) : Option (Option Sample) :=
  match lines with
  | [] => some none
  | line :: _ => if hasPrefix "cpu".data line then parseCounters (tokens line) else some none

/-- The text `"cpu" + std::to_string(coreId)`. -/
def corePrefix (coreId : Int) : List Char := "cpu".data ++ (toString coreId).data

/-- The reading of core `coreId` in one call: the first line that starts
with `corePrefix coreId`; the scan stops there (`break`). -/
def coreSample (lines : List (List Char)) (coreId : Int) : Option (Option Sample) :=
  match lines.find? (hasPrefix (corePrefix coreId)) with
  | none => some none
  | some line => parseCounters (tokens line)

/-- The delta step of the aggregate block on a parsed reading. -/
def observeAggregate (s : Sample) (acc : CpuData × CpuState) : CpuData × CpuState :=
  (if acc.2.prevTotal ≠ 0 then
      { acc.1 with total := some (usage (sub64 s.total acc.2.prevTotal)
          (sub64 s.nonIdle acc.2.prevNonIdle)) }
    else acc.1,
   { acc.2 with prevTotal := s.total, prevNonIdle := s.nonIdle })

/-- The delta step of the per-core block on a parsed reading. -/
def observeCore (coreId : Int) (s : Sample) (acc : CpuData × CpuState) : CpuData × CpuState :=
  (match mapFind acc.2.prevCoreTotals coreId with
    | some pt =>
      { acc.1 with cores := mapSet acc.1.cores coreId (usage (sub64 s.total pt)
          (sub64 s.nonIdle ((mapFind acc.2.prevCoreNonIdles coreId).getD 0))) }
    | none => acc.1,
   { acc.2 with
     prevCoreTotals := mapSet acc.2.prevCoreTotals coreId s.total,
     prevCoreNonIdles := mapSet acc.2.prevCoreNonIdles coreId s.nonIdle })

/-- The aggregate block of `getCpuMetrics`. -/
def aggregateStep (lines : List (List Char)) (acc : CpuData × CpuState) :
    Option (CpuData × CpuState) :=
  match aggSample lines with
  | none => none
  | some none => some acc
  | some (some s) => some (observeAggregate s acc)

/-- The body of the loop `for (int coreId : coreIds)`. -/
def coreStep (lines : List (List Char)) (acc : CpuData × CpuState) (coreId : Int) :
    Option (CpuData × CpuState) :=
  match coreSample lines coreId with
  | none => none
  | some none => some acc
  | some (some s) => some (observeCore coreId s acc)

/-- The method `getCpuMetrics(coreIds)` on the text `statFile` of the counter
file and the statics `st`: the JSON value returned and the statics after the
call, or `none` when an exception leaves the method. -/
def getCpuMetrics (coreIds : List Int) (statFile : String) (st : CpuState) :
    Option (CpuData × CpuState) :=
  (aggregateStep (getlines statFile) (CpuData.empty, st)).bind
    (fun acc => coreIds.foldlM (coreStep (getlines statFile)) acc)

/-- A sequence of calls of `getCpuMetrics`, each with its requested core ids
and the text read: the values returned, in order, and the final statics. -/
def runCpu (st : CpuState) : List (List Int × String) → Option (List CpuData × CpuState)
  | [] => some ([], st)
  | p :: ps =>
    (getCpuMetrics p.1 p.2 st).bind fun r =>
      (runCpu r.2 ps).map fun q => (r.1 :: q.1, q.2)

/-! ## Memory metrics -/

/-- The extraction `iss >> key` of a `std::string`: leading white space is
skipped and the maximal run of other characters is read. The pair is the
word and the unread rest of the line. -/
def extractWord (line : List Char) : List Char × List Char :=
  ((line.dropWhile isSpace).takeWhile (fun c => !isSpace c),
   (line.dropWhile isSpace).dropWhile (fun c => !isSpace c))

/-- The extraction `iss >> value` of an `unsigned long long` from the unread
rest of a line. When only white space is left the stream fails before the
conversion and `value` keeps what it held, `junk`: the variable is declared
without an initialiser. Otherwise an optional sign and the longest run of
digits are converted; no digit gives 0, digits beyond `ULLONG_MAX` give
`ULLONG_MAX`, and a minus sign negates in `unsigned long long`. -/
def extractULL (junk : Nat) (rest : List Char) : Nat :=
  if (rest.dropWhile isSpace).isEmpty then junk % U64
  else if ((splitSign (rest.dropWhile isSpace)).2.takeWhile Char.isDigit).isEmpty then 0
  else if U64 ≤ digitsValue ((splitSign (rest.dropWhile isSpace)).2.takeWhile Char.isDigit) then
    U64 - 1
  else if (splitSign (rest.dropWhile isSpace)).1 then
    sub64 0 (digitsValue ((splitSign (rest.dropWhile isSpace)).2.takeWhile Char.isDigit))
  else digitsValue ((splitSign (rest.dropWhile isSpace)).2.takeWhile Char.isDigit)

/-- The statement `if (!key.empty() && key.back() == ':') key.pop_back()`. -/
def stripColon (key : List Char) : List Char :=
  if key.getLast? = some ':' then key.dropLast else key

/-- The body of the loop over the lines of the memory file, up to the
assignment `memValues[key] = value`: the key and the value stored. -/
def parseMemLine (junk : Nat) (line : List Char) : String × Nat :=
  (String.mk (stripColon (extractWord line).1), extractULL junk (extractWord line).2)

/-- The loop `while (std::getline(meminfoFile, line))` building `memValues`.
The value `junk i` is what the uninitialised variable `value` holds in the
iteration for line `i`. -/
def readMemValues (junk : Nat → Nat) :
    Nat → List (List Char) → List (String × Nat) → List (String × Nat)
  | _, [], m => m
  | i, line :: rest, m =>
    readMemValues junk (i + 1) rest
      (mapSet m (parseMemLine (junk i) line).1 (parseMemLine (junk i) line).2)

/-- The map `memValues` of `getMemoryMetrics` after the reading loop. -/
def memValues (junk : Nat → Nat) (meminfoFile : String) : List (String × Nat) :=
  readMemValues junk 0 (getlines meminfoFile) []

/-- The pass-through branch `if (memValues.count(key)) memoryData[spec] = memValues[key]`. -/
def passThrough (mv : List (String × Nat)) (memoryData : List (String × Nat))
    (spec key : String) : List (String × Nat) :=
  match mapFind mv key with
  | some v => mapSet memoryData spec v
  | none => memoryData

/-- The body of the loop `for (const auto& spec : specs)`. -/
def specStep (mv : List (String × Nat)) (memoryData : List (String × Nat)) (spec : String) :
    List (String × Nat) :=
  if spec = "used" then
    match mapFind mv "MemTotal", mapFind mv "MemFree" with
    | some t, some f => mapSet memoryData "used" (sub64 t f)
    | _, _ => memoryData
  else if spec = "free" then passThrough mv memoryData "free" "MemFree"
  else if spec = "available" then passThrough mv memoryData "available" "MemAvailable"
  else if spec = "cached" then passThrough mv memoryData "cached" "Cached"
  else if spec = "buffers" then passThrough mv memoryData "buffers" "Buffers"
  else memoryData

/-- The method `getMemoryMetrics(specs)` on the text `meminfoFile` of the
memory file: the JSON object `memoryData` as a map from key to value. -/
def getMemoryMetrics (junk : Nat → Nat) (specs : List String) (meminfoFile : String) :
    List (String × Nat) :=
  specs.foldl (specStep (memValues junk meminfoFile)) []

/-- The key of the memory file behind a requested spec; `used` has the two
keys `MemTotal` and `MemFree` and is not listed here. -/
def backingKey (spec : String) : Option String :=
  if spec = "free" then some "MemFree"
  else if spec = "available" then some "MemAvailable"
  else if spec = "cached" then some "Cached"
  else if spec = "buffers" then some "Buffers"
  else none

/-! ## Configuration -/

/-- A JSON document as `nlohmann::json` holds it, numbers being integers. -/
inductive Json where
  | null : Json
  | bool : Bool → Json
  | num : Int → Json
  | str : String → Json
  | arr : List Json → Json
  | obj : List (String × Json) → Json

/-- The mutable `operator[](key)`: a null value becomes an object, a missing
key is created with the value null, and any other kind of value throws. -/
def Json.index (j : Json) (key : String) : Option Json :=
  match j with
  | .null => some .null
  | .obj o => some ((mapFind o key).getD .null)
  | _ => none

/-- The `const` `operator[](key)`: defined on an object that has the key. -/
def Json.member (j : Json) (key : String) : Option Json :=
  match j with
  | .obj o => mapFind o key
  | _ => none

/-- The method `contains(key)`. -/
def Json.contains (j : Json) (key : String) : Bool :=
  match j with
  | .obj o => (mapFind o key).isSome
  | _ => false

/-- The values visited by a range-based `for` over a JSON value. -/
def Json.items (j : Json) : List Json :=
  match j with
  | .null => []
  | .arr a => a
  | .obj o => o.map Prod.snd
  | v => [v]

/-- The conversion `static_cast<int>` of a 64-bit integer. -/
def wrapInt32 (n : Int) : Int := (n + 2 ^ 31) % 2 ^ 32 - 2 ^ 31

/-- The method `get<int>()`: numbers and booleans convert, the rest throws. -/
def Json.getInt (j : Json) : Option Int :=
  match j with
  | .num n => some (wrapInt32 n)
  | .bool b => some (if b then 1 else 0)
  | _ => none

/-- The method `get<std::string>()`. -/
def Json.getString (j : Json) : Option String :=
  match j with
  | .str s => some s
  | _ => none

/-- The struct `MetricConfig`. -/
structure MetricConfig where
  type : String
  ids : List Int
  specs : List String
deriving DecidableEq, Repr

/-- The struct `OutputConfig`. -/
structure OutputConfig where
  type : String
  path : String
deriving DecidableEq, Repr

/-- The members `period_`, `metrics_` and `outputs_` set by `loadConfig`. -/
structure Config where
  period : Int
  metrics : List MetricConfig
  outputs : List OutputConfig
deriving DecidableEq, Repr

/-- The body of the loop over `config["metrics"]`. -/
def loadMetric (metric : Json) : Option MetricConfig := do
  let type ← (← metric.member "type").getString
  let ids ← if metric.contains "ids" then
      (← metric.member "ids").items.mapM Json.getInt else pure []
  let specs ← if metric.contains "spec" then
      (← metric.member "spec").items.mapM Json.getString else pure []
  pure ⟨type, ids, specs⟩

/-- The body of the loop over `config["outputs"]`. -/
def loadOutput (output : Json) : Option OutputConfig := do
  let type ← (← output.member "type").getString
  let path ← if output.contains "path" then
      (← output.member "path").getString else pure ""
  pure ⟨type, path⟩

/-- The value `config["settings"]["period"]` read by `loadConfig`. -/
def periodValue (config : Json) : Option Json :=
  (config.index "settings").bind (fun s => s.index "period")

/-- The method `loadConfig` on the document parsed from the configuration
file; `none` is the exception it rethrows. -/
def loadConfig (config : Json) : Option Config := do
  let period ← (← periodValue config).getInt
  let metrics ← (← config.index "metrics").items.mapM loadMetric
  let outputs ← (← config.index "outputs").items.mapM loadOutput
  pure ⟨period, metrics, outputs⟩

/-! ## One sampling pass -/

/-- The members `cpu` and `memory` of the value built by `collectMetrics`;
the time stamp is left out. -/
structure Snapshot where
  cpu : Option CpuData
  memory : Option (List (String × Nat))

/-- The body of the loop `for (const auto& metric : metrics_)`. -/
def collectStep (junk : Nat → Nat) (statFile meminfoFile : String)
    (acc : Snapshot × CpuState) (metric : MetricConfig) : Option (Snapshot × CpuState) :=
  if metric.type = "cpu" then
    (getCpuMetrics metric.ids statFile acc.2).map
      (fun r => ({ acc.1 with cpu := some r.1 }, r.2))
  else if metric.type = "memory" then
    some ({ acc.1 with memory := some (getMemoryMetrics junk metric.specs meminfoFile) }, acc.2)
  else some acc

/-- The method `collectMetrics`, on the texts of the two files. -/
def collectMetrics (metrics : List MetricConfig) (junk : Nat → Nat)
    (statFile meminfoFile : String) (st : CpuState) : Option (Snapshot × CpuState) :=
  metrics.foldlM (collectStep junk statFile meminfoFile) (⟨none, none⟩, st)

/-! ## Views used by the statements -/

/-- What the program holds about core `coreId`: its entry in `cores` of the
value being built, and its entries in the two maps of previous readings. -/
def slot (coreId : Int) (acc : CpuData × CpuState) : Option ℚ × Option Nat × Option Nat :=
  (mapFind acc.1.cores coreId, mapFind acc.2.prevCoreTotals coreId,
   mapFind acc.2.prevCoreNonIdles coreId)

/-- The effect of one parsed reading on the slot of its own core. -/
def slotStep (s : Sample) (v : Option ℚ × Option Nat × Option Nat) :
    Option ℚ × Option Nat × Option Nat :=
  (match v.2.1 with
    | some pt => some (usage (sub64 s.total pt) (sub64 s.nonIdle (v.2.2.getD 0)))
    | none => v.1,
   some s.total, some s.nonIdle)

/-- The effect of one visit of a requested core on its slot, by the outcome
of its reading. -/
def slotUpdate (r : Option (Option Sample)) (v : Option ℚ × Option Nat × Option Nat) :
    Option ℚ × Option Nat × Option Nat :=
  match r with
  | some (some s) => slotStep s v
  | _ => v

/-- What the program holds about the aggregate entity. -/
def aggView (acc : CpuData × CpuState) : Option ℚ × Nat × Nat :=
  (acc.1.total, acc.2.prevTotal, acc.2.prevNonIdle)

/-- The effect of the aggregate block on the aggregate view. -/
def aggUpdate (r : Option (Option Sample)) (v : Option ℚ × Nat × Nat) : Option ℚ × Nat × Nat :=
  match r with
  | some (some s) =>
    (if v.2.1 ≠ 0 then some (usage (sub64 s.total v.2.1) (sub64 s.nonIdle v.2.2)) else v.1,
     s.total, s.nonIdle)
  | _ => v

/-- A line of the memory file has something after its key, so that the
conversion of the value does not depend on the uninitialised variable. -/
def hasValueField (line : List Char) : Bool :=
  !((extractWord line).2.dropWhile isSpace).isEmpty

/-- The value that the dispatch on `spec` stores under the key `spec`, if any:
the difference for `used`, the backing key's value for the other four. -/
def specValue (mv : List (String × Nat)) (spec : String) : Option Nat :=
  if spec = "used" then
    match mapFind mv "MemTotal", mapFind mv "MemFree" with
    | some t, some f => some (sub64 t f)
    | _, _ => none
  else (backingKey spec).bind (mapFind mv)

/-! ## Lemmas: arithmetic and maps -/

theorem sub64_self (a : Nat) : sub64 a a = 0 := by
  unfold sub64 U64
  have h : a % 2 ^ 64 < 2 ^ 64 := Nat.mod_lt _ (by norm_num)
  omega

theorem sub64_of_le {a b : Nat} (hb : b ≤ a) (ha : a < U64) : sub64 a b = a - b := by
  unfold sub64
  unfold U64 at *
  rw [Nat.mod_eq_of_lt ha, Nat.mod_eq_of_lt (lt_of_le_of_lt hb ha)]
  omega

theorem sub64_lt (a b : Nat) : sub64 a b < U64 := by
  unfold sub64
  exact Nat.mod_lt _ (by unfold U64; norm_num)

theorem mapFind_filter_ne {κ ν : Type} [DecidableEq κ] (m : List (κ × ν)) {k j : κ}
    (h : j ≠ k) : mapFind (m.filter (fun e => !decide (e.1 = k))) j = mapFind m j := by
  induction m with
  | nil => rfl
  | cons e r ih =>
    by_cases hk : e.1 = k
    · have hj : ¬ k = j := fun hej => h hej.symm
      simp [List.filter_cons, hk, mapFind, hj, ih]
    · by_cases hj : e.1 = j
      · simp [List.filter_cons, hk, mapFind, hj, h]
      · simp [List.filter_cons, hk, mapFind, hj, ih]

theorem mapFind_mapSet_self {κ ν : Type} [DecidableEq κ] (m : List (κ × ν)) (k : κ) (v : ν) :
    mapFind (mapSet m k v) k = some v := by
  simp [mapSet, mapFind]

theorem mapFind_mapSet_ne {κ ν : Type} [DecidableEq κ] (m : List (κ × ν)) {k j : κ} (v : ν)
    (h : j ≠ k) : mapFind (mapSet m k v) j = mapFind m j := by
  have hk : k ≠ j := fun e => h e.symm
  simp [mapSet, mapFind, hk, mapFind_filter_ne m h]

theorem mapFind_isSome_iff {κ ν : Type} [DecidableEq κ] (m : List (κ × ν)) (k : κ) :
    (mapFind m k).isSome = true ↔ k ∈ m.map Prod.fst := by
  induction m with
  | nil => simp [mapFind]
  | cons e r ih =>
    by_cases hk : e.1 = k
    · simp [mapFind, hk]
    · have hk2 : k ≠ e.1 := fun h => hk h.symm
      simp [mapFind, hk, hk2] at ih ⊢
      exact ih

/-! ## Lemmas: readings -/

theorem parseCounters_lt {toks : List (List Char)} {s : Sample}
    (h : parseCounters toks = some (some s)) : s.total < U64 ∧ s.nonIdle < U64 := by
  unfold parseCounters at h
  split at h
  · simp only [Option.bind_eq_bind, Option.pure_def] at h
    rcases Option.bind_eq_some.mp h with ⟨a1, -, h⟩
    rcases Option.bind_eq_some.mp h with ⟨a2, -, h⟩
    rcases Option.bind_eq_some.mp h with ⟨a3, -, h⟩
    rcases Option.bind_eq_some.mp h with ⟨a4, -, h⟩
    rcases Option.bind_eq_some.mp h with ⟨a5, -, h⟩
    rcases Option.bind_eq_some.mp h with ⟨a6, -, h⟩
    rcases Option.bind_eq_some.mp h with ⟨a7, -, h⟩
    have hs := Option.some.inj (Option.some.inj h)
    subst hs
    exact ⟨Nat.mod_lt _ (by unfold U64; norm_num), Nat.mod_lt _ (by unfold U64; norm_num)⟩
  · simp at h

theorem aggSample_lt {lines : List (List Char)} {s : Sample}
    (h : aggSample lines = some (some s)) : s.total < U64 ∧ s.nonIdle < U64 := by
  unfold aggSample at h
  split at h
  · simp at h
  · split at h
    · exact parseCounters_lt h
    · simp at h

theorem coreSample_lt {lines : List (List Char)} {coreId : Int} {s : Sample}
    (h : coreSample lines coreId = some (some s)) : s.total < U64 ∧ s.nonIdle < U64 := by
  unfold coreSample at h
  split at h
  · simp at h
  · exact parseCounters_lt h

theorem coreSample_of_no_line {lines : List (List Char)} {coreId : Int}
    (h : ∀ line ∈ lines, hasPrefix (corePrefix coreId) line = false) :
    coreSample lines coreId = some none := by
  unfold coreSample
  have : lines.find? (hasPrefix (corePrefix coreId)) = none := by
    rw [List.find?_eq_none]
    intro x hx
    simp [h x hx]
  rw [this]

/-! ## Lemmas: one visit of a core -/

theorem slot_observeCore_self (coreId : Int) (s : Sample) (acc : CpuData × CpuState) :
    slot coreId (observeCore coreId s acc) = slotStep s (slot coreId acc) := by
  unfold slot observeCore slotStep
  cases hf : mapFind acc.2.prevCoreTotals coreId <;>
    simp [mapFind_mapSet_self]

theorem slot_observeCore_ne {coreId j : Int} (s : Sample) (acc : CpuData × CpuState)
    (h : j ≠ coreId) : slot j (observeCore coreId s acc) = slot j acc := by
  unfold slot observeCore
  cases hf : mapFind acc.2.prevCoreTotals coreId <;>
    simp [mapFind_mapSet_ne _ _ h]

theorem aggView_observeCore (coreId : Int) (s : Sample) (acc : CpuData × CpuState) :
    aggView (observeCore coreId s acc) = aggView acc := by
  unfold aggView observeCore
  cases hf : mapFind acc.2.prevCoreTotals coreId <;> simp

theorem slot_observeAggregate (j : Int) (s : Sample) (acc : CpuData × CpuState) :
    slot j (observeAggregate s acc) = slot j acc := by
  unfold slot observeAggregate
  by_cases h : acc.2.prevTotal = 0 <;> simp [h]

theorem aggView_observeAggregate (s : Sample) (acc : CpuData × CpuState) :
    aggView (observeAggregate s acc) = aggUpdate (some (some s)) (aggView acc) := by
  unfold aggView observeAggregate aggUpdate
  by_cases h : acc.2.prevTotal = 0 <;> simp [h]

theorem coreStep_slot {lines : List (List Char)} {acc acc' : CpuData × CpuState} {j : Int}
    (id : Int) (h : coreStep lines acc j = some acc') :
    slot id acc' = if j = id then slotUpdate (coreSample lines id) (slot id acc)
      else slot id acc := by
  unfold coreStep at h
  by_cases hj : j = id
  · subst hj
    simp only [if_true]
    cases hs : coreSample lines j with
    | none => simp [hs] at h
    | some r =>
      cases r with
      | none =>
        simp [hs] at h
        subst h
        rfl
      | some s =>
        simp [hs] at h
        subst h
        exact slot_observeCore_self j s acc
  · simp only [hj, if_false]
    cases hs : coreSample lines j with
    | none => simp [hs] at h
    | some r =>
      cases r with
      | none =>
        simp [hs] at h
        subst h
        rfl
      | some s =>
        simp [hs] at h
        subst h
        exact slot_observeCore_ne s acc (fun e => hj e.symm)

theorem coreStep_aggView {lines : List (List Char)} {acc acc' : CpuData × CpuState} {j : Int}
    (h : coreStep lines acc j = some acc') : aggView acc' = aggView acc := by
  unfold coreStep at h
  cases hs : coreSample lines j with
  | none => simp [hs] at h
  | some r =>
    cases r with
    | none =>
      simp [hs] at h
      subst h
      rfl
    | some s =>
      simp [hs] at h
      subst h
      exact aggView_observeCore j s acc

theorem coreStep_isSome (lines : List (List Char)) (acc : CpuData × CpuState) (j : Int) :
    (coreStep lines acc j).isSome = (coreSample lines j).isSome := by
  unfold coreStep
  cases hs : coreSample lines j with
  | none => rfl
  | some r => cases r <;> rfl

/-! ## Lemmas: the loop over the requested cores -/

theorem foldlM_coreStep_slot (lines : List (List Char)) (id : Int) :
    ∀ (ids : List Int) (acc acc' : CpuData × CpuState),
      ids.foldlM (coreStep lines) acc = some acc' →
      slot id acc' = (slotUpdate (coreSample lines id))^[ids.count id] (slot id acc) := by
  intro ids
  induction ids with
  | nil =>
    intro acc acc' h
    simp at h
    subst h
    rfl
  | cons j ids ih =>
    intro acc acc' h
    rw [List.foldlM_cons] at h
    rcases Option.bind_eq_some.mp h with ⟨mid, hmid, hrest⟩
    rw [ih mid acc' hrest, coreStep_slot id hmid]
    by_cases hj : j = id
    · subst hj
      simp [List.count_cons_self, Function.iterate_succ_apply]
    · simp [hj, List.count_cons_of_ne (fun e => hj e.symm)]

theorem foldlM_coreStep_aggView (lines : List (List Char)) :
    ∀ (ids : List Int) (acc acc' : CpuData × CpuState),
      ids.foldlM (coreStep lines) acc = some acc' → aggView acc' = aggView acc := by
  intro ids
  induction ids with
  | nil =>
    intro acc acc' h
    simp at h
    subst h
    rfl
  | cons j ids ih =>
    intro acc acc' h
    rw [List.foldlM_cons] at h
    rcases Option.bind_eq_some.mp h with ⟨mid, hmid, hrest⟩
    rw [ih mid acc' hrest, coreStep_aggView hmid]

theorem foldlM_coreStep_some (lines : List (List Char)) :
    ∀ (ids : List Int) (acc : CpuData × CpuState),
      (∀ j ∈ ids, coreSample lines j ≠ none) →
      ∃ acc', ids.foldlM (coreStep lines) acc = some acc' := by
  intro ids
  induction ids with
  | nil =>
    intro acc _
    exact ⟨acc, rfl⟩
  | cons j ids ih =>
    intro acc h
    have hj : (coreStep lines acc j).isSome = true := by
      rw [coreStep_isSome]
      exact Option.isSome_iff_ne_none.mpr (h j (List.mem_cons_self j ids))
    rcases Option.isSome_iff_exists.mp hj with ⟨mid, hmid⟩
    rcases ih mid (fun k hk => h k (List.mem_cons_of_mem j hk)) with ⟨acc', hacc'⟩
    exact ⟨acc', by rw [List.foldlM_cons, hmid]; exact hacc'⟩

theorem foldlM_coreStep_none (lines : List (List Char)) :
    ∀ (ids : List Int) (acc : CpuData × CpuState) (j : Int),
      j ∈ ids → coreSample lines j = none → ids.foldlM (coreStep lines) acc = none := by
  intro ids
  induction ids with
  | nil =>
    intro acc j hj
    simp at hj
  | cons k ids ih =>
    intro acc j hj hs
    rw [List.foldlM_cons]
    cases hk : coreStep lines acc k with
    | none => rfl
    | some mid =>
      rcases List.mem_cons.mp hj with rfl | hmem
      · have := coreStep_isSome lines acc j
        rw [hk, hs] at this
        simp at this
      · exact ih mid j hmem hs

theorem foldlM_coreStep_skip (lines : List (List Char)) (id : Int)
    (hs : coreSample lines id = some none) :
    ∀ (ids : List Int) (acc : CpuData × CpuState),
      ids.foldlM (coreStep lines) acc =
        (ids.filter (fun j => !decide (j = id))).foldlM (coreStep lines) acc := by
  intro ids
  induction ids with
  | nil =>
    intro acc
    rfl
  | cons j ids ih =>
    intro acc
    by_cases hj : j = id
    · subst hj
      have hstep : coreStep lines acc j = some acc := by
        unfold coreStep
        rw [hs]
      simp only [List.foldlM_cons, hstep, List.filter_cons, decide_True, Bool.not_true]
      simpa using ih acc
    · simp only [List.foldlM_cons, List.filter_cons, hj, decide_False, Bool.not_false, if_true]
      cases hk : coreStep lines acc j with
      | none => rfl
      | some mid => simpa using ih mid

/-! ## Lemmas: one call of `getCpuMetrics` -/

theorem aggregateStep_aggView {lines : List (List Char)} {acc acc' : CpuData × CpuState}
    (h : aggregateStep lines acc = some acc') :
    aggView acc' = aggUpdate (aggSample lines) (aggView acc) := by
  unfold aggregateStep at h
  cases hs : aggSample lines with
  | none => simp [hs] at h
  | some r =>
    cases r with
    | none =>
      simp [hs] at h
      subst h
      rfl
    | some s =>
      simp [hs] at h
      subst h
      exact aggView_observeAggregate s acc

theorem aggregateStep_slot {lines : List (List Char)} {acc acc' : CpuData × CpuState}
    (id : Int) (h : aggregateStep lines acc = some acc') : slot id acc' = slot id acc := by
  unfold aggregateStep at h
  cases hs : aggSample lines with
  | none => simp [hs] at h
  | some r =>
    cases r with
    | none =>
      simp [hs] at h
      subst h
      rfl
    | some s =>
      simp [hs] at h
      subst h
      exact slot_observeAggregate id s acc

/-- The aggregate entity after a call: its entry and its stored reading are
those before the call, updated once by the reading of the first line. -/
theorem getCpuMetrics_aggView {ids : List Int} {c : String} {st st' : CpuState} {d : CpuData}
    (h : getCpuMetrics ids c st = some (d, st')) :
    (d.total, st'.prevTotal, st'.prevNonIdle) =
      aggUpdate (aggSample (getlines c)) (none, st.prevTotal, st.prevNonIdle) := by
  unfold getCpuMetrics at h
  rcases Option.bind_eq_some.mp h with ⟨mid, hmid, hrest⟩
  have h1 := foldlM_coreStep_aggView _ _ _ _ hrest
  have h2 := aggregateStep_aggView hmid
  rw [h2] at h1
  exact h1

/-- A core after a call: its entry and its stored reading are those before
the call, updated once for every occurrence of the core in the request. -/
theorem getCpuMetrics_slot {ids : List Int} {c : String} {st st' : CpuState} {d : CpuData}
    (id : Int) (h : getCpuMetrics ids c st = some (d, st')) :
    (mapFind d.cores id, mapFind st'.prevCoreTotals id, mapFind st'.prevCoreNonIdles id) =
      (slotUpdate (coreSample (getlines c) id))^[ids.count id]
        (none, mapFind st.prevCoreTotals id, mapFind st.prevCoreNonIdles id) := by
  unfold getCpuMetrics at h
  rcases Option.bind_eq_some.mp h with ⟨mid, hmid, hrest⟩
  have h1 := foldlM_coreStep_slot _ id _ _ _ hrest
  have h2 := aggregateStep_slot id hmid
  rw [h2] at h1
  exact h1

/-- A call returns when no reading it makes throws. -/
theorem getCpuMetrics_some {ids : List Int} {c : String} (st : CpuState)
    (ha : aggSample (getlines c) ≠ none)
    (hc : ∀ j ∈ ids, coreSample (getlines c) j ≠ none) :
    ∃ d st', getCpuMetrics ids c st = some (d, st') := by
  unfold getCpuMetrics
  have h1 : ∃ mid, aggregateStep (getlines c) (CpuData.empty, st) = some mid := by
    unfold aggregateStep
    cases hs : aggSample (getlines c) with
    | none => exact absurd hs ha
    | some r => cases r <;> exact ⟨_, rfl⟩
  rcases h1 with ⟨mid, hmid⟩
  rcases foldlM_coreStep_some (getlines c) ids mid hc with ⟨acc', hacc'⟩
  exact ⟨acc'.1, acc'.2, by rw [hmid]; exact hacc'⟩

/-- A call throws when a reading it makes throws. -/
theorem getCpuMetrics_none {ids : List Int} {c : String} (st : CpuState)
    (h : aggSample (getlines c) = none ∨ ∃ j ∈ ids, coreSample (getlines c) j = none) :
    getCpuMetrics ids c st = none := by
  unfold getCpuMetrics
  cases hm : aggregateStep (getlines c) (CpuData.empty, st) with
  | none => rfl
  | some mid =>
    rcases h with h | ⟨j, hj, hs⟩
    · unfold aggregateStep at hm
      rw [h] at hm
      simp at hm
    · exact foldlM_coreStep_none (getlines c) ids mid j hj hs

/-- A requested core with no line to read can be dropped from the request. -/
theorem getCpuMetrics_skip {ids : List Int} {c : String} (st : CpuState) (id : Int)
    (hs : coreSample (getlines c) id = some none) :
    getCpuMetrics ids c st = getCpuMetrics (ids.filter (fun j => !decide (j = id))) c st := by
  unfold getCpuMetrics
  cases hm : aggregateStep (getlines c) (CpuData.empty, st) with
  | none => rfl
  | some mid => exact foldlM_coreStep_skip (getlines c) id hs ids mid

/-! ## Lemmas: repeated visits -/

theorem slotStep_iterate_snd (s : Sample) (n : Nat) (v : Option ℚ × Option Nat × Option Nat) :
    ((slotStep s)^[n + 1] v).2 = (some s.total, some s.nonIdle) := by
  rw [Function.iterate_succ_apply']
  rfl

theorem slotStep_iterate_twice (s : Sample) (n : Nat) (v : Option ℚ × Option Nat × Option Nat) :
    (slotStep s)^[n + 2] v = (some 0, some s.total, some s.nonIdle) := by
  rw [Function.iterate_succ_apply']
  have h := slotStep_iterate_snd s n v
  generalize (slotStep s)^[n + 1] v = w at h
  obtain ⟨w1, w2⟩ := w
  simp only at h
  subst h
  simp [slotStep, sub64_self, usage]

/-! ## Lemmas: what a call leaves for one core -/

theorem slotUpdate_found (s : Sample) : slotUpdate (some (some s)) = slotStep s := by
  funext v
  rfl

theorem core_stored_of_found {ids : List Int} {c : String} {st st' : CpuState} {d : CpuData}
    (h : getCpuMetrics ids c st = some (d, st')) {id : Int} {s : Sample} (hid : id ∈ ids)
    (hs : coreSample (getlines c) id = some (some s)) :
    mapFind st'.prevCoreTotals id = some s.total ∧
      mapFind st'.prevCoreNonIdles id = some s.nonIdle := by
  have hv := getCpuMetrics_slot id h
  have hpos : 0 < ids.count id := List.count_pos_iff.mpr hid
  obtain ⟨n, hn⟩ : ∃ n, ids.count id = n + 1 := ⟨ids.count id - 1, by omega⟩
  rw [hs, hn] at hv
  have h2 := congrArg Prod.snd hv
  rw [slotUpdate_found, slotStep_iterate_snd] at h2
  simp only [Prod.mk.injEq] at h2
  exact h2

theorem core_entry_of_once {ids : List Int} {c : String} {st st' : CpuState} {d : CpuData}
    (h : getCpuMetrics ids c st = some (d, st')) {id : Int} {s : Sample}
    (hid : ids.count id = 1) (hs : coreSample (getlines c) id = some (some s)) :
    mapFind d.cores id =
      (mapFind st.prevCoreTotals id).map (fun pt =>
        usage (sub64 s.total pt) (sub64 s.nonIdle ((mapFind st.prevCoreNonIdles id).getD 0))) := by
  have hv := getCpuMetrics_slot id h
  rw [hs, hid] at hv
  have h1 := congrArg Prod.fst hv
  simp only [slotUpdate, Function.iterate_one, slotStep] at h1
  rw [h1]
  cases mapFind st.prevCoreTotals id <;> rfl

theorem core_entry_of_repeated {ids : List Int} {c : String} {st st' : CpuState} {d : CpuData}
    (h : getCpuMetrics ids c st = some (d, st')) {id : Int} {s : Sample}
    (hid : 2 ≤ ids.count id) (hs : coreSample (getlines c) id = some (some s)) :
    mapFind d.cores id = some 0 := by
  have hv := getCpuMetrics_slot id h
  obtain ⟨n, hn⟩ : ∃ n, ids.count id = n + 2 := ⟨ids.count id - 2, by omega⟩
  rw [hs, hn] at hv
  have h1 := congrArg Prod.fst hv
  rw [slotUpdate_found, slotStep_iterate_twice] at h1
  exact h1

theorem slotUpdate_skip_iterate (n : Nat) (v : Option ℚ × Option Nat × Option Nat) :
    (slotUpdate (some none))^[n] v = v := by
  induction n with
  | zero => rfl
  | succ k ih => rw [Function.iterate_succ_apply']; rw [ih]; rfl

theorem core_untouched {ids : List Int} {c : String} {st st' : CpuState} {d : CpuData}
    (h : getCpuMetrics ids c st = some (d, st')) {id : Int}
    (hid : id ∉ ids ∨ coreSample (getlines c) id = some none) :
    mapFind d.cores id = none ∧ mapFind st'.prevCoreTotals id = mapFind st.prevCoreTotals id ∧
      mapFind st'.prevCoreNonIdles id = mapFind st.prevCoreNonIdles id := by
  have hv := getCpuMetrics_slot id h
  rcases hid with hid | hid
  · rw [List.count_eq_zero_of_not_mem hid] at hv
    simp only [Function.iterate_zero, id_eq, Prod.mk.injEq] at hv
    exact hv
  · rw [hid, slotUpdate_skip_iterate] at hv
    simp only [Prod.mk.injEq] at hv
    exact hv

theorem agg_of_found {ids : List Int} {c : String} {st st' : CpuState} {d : CpuData}
    (h : getCpuMetrics ids c st = some (d, st')) {s : Sample}
    (hs : aggSample (getlines c) = some (some s)) :
    d.total = (if st.prevTotal ≠ 0 then
        some (usage (sub64 s.total st.prevTotal) (sub64 s.nonIdle st.prevNonIdle)) else none) ∧
      st'.prevTotal = s.total ∧ st'.prevNonIdle = s.nonIdle := by
  have hv := getCpuMetrics_aggView h
  rw [hs] at hv
  simp only [aggUpdate, Prod.mk.injEq] at hv
  exact hv

theorem agg_untouched {ids : List Int} {c : String} {st st' : CpuState} {d : CpuData}
    (h : getCpuMetrics ids c st = some (d, st'))
    (hs : aggSample (getlines c) = some none) :
    d.total = none ∧ st'.prevTotal = st.prevTotal ∧ st'.prevNonIdle = st.prevNonIdle := by
  have hv := getCpuMetrics_aggView h
  rw [hs] at hv
  simp only [aggUpdate, Prod.mk.injEq] at hv
  exact hv

/-! ## Claims about the stored readings -/

/-- C9: after a call of `getCpuMetrics` that returns, every entity whose line
was parsed (the aggregate, or a requested core) has as stored previous
reading the `(total, nonIdle)` just read, whatever was emitted; an entity
that was not read (not requested, no line, or a line with fewer than eight
tokens) keeps its stored reading; and the next call takes its differences
against the reading stored here. -/
theorem C9_stored_reading_is_last_parsed (ids : List Int) (c : String) (st st' : CpuState)
    (d : CpuData) (h : getCpuMetrics ids c st = some (d, st')) :
    (∀ s, aggSample (getlines c) = some (some s) →
      st'.prevTotal = s.total ∧ st'.prevNonIdle = s.nonIdle) ∧
    (∀ id ∈ ids, ∀ s, coreSample (getlines c) id = some (some s) →
      mapFind st'.prevCoreTotals id = some s.total ∧
      mapFind st'.prevCoreNonIdles id = some s.nonIdle) ∧
    (aggSample (getlines c) = some none →
      st'.prevTotal = st.prevTotal ∧ st'.prevNonIdle = st.prevNonIdle) ∧
    (∀ id, id ∉ ids ∨ coreSample (getlines c) id = some none →
      mapFind st'.prevCoreTotals id = mapFind st.prevCoreTotals id ∧
      mapFind st'.prevCoreNonIdles id = mapFind st.prevCoreNonIdles id) ∧
    (∀ ids2 c2 d2 st2, getCpuMetrics ids2 c2 st' = some (d2, st2) →
      (∀ s s2, aggSample (getlines c) = some (some s) →
        aggSample (getlines c2) = some (some s2) → s.total ≠ 0 →
        d2.total = some (usage (sub64 s2.total s.total) (sub64 s2.nonIdle s.nonIdle))) ∧
      (∀ id ∈ ids, ∀ s s2, coreSample (getlines c) id = some (some s) →
        coreSample (getlines c2) id = some (some s2) → ids2.count id = 1 →
        mapFind d2.cores id =
          some (usage (sub64 s2.total s.total) (sub64 s2.nonIdle s.nonIdle)))) := by
  refine ⟨fun s hs => (agg_of_found h hs).2, fun id hid s hs => core_stored_of_found h hid hs,
    fun hs => (agg_untouched h hs).2, fun id hid => (core_untouched h hid).2, ?_⟩
  intro ids2 c2 d2 st2 h2
  constructor
  · intro s s2 hs hs2 hne
    have h1 := (agg_of_found h hs).2
    have h3 := (agg_of_found h2 hs2).1
    rw [h1.1, h1.2, if_pos hne] at h3
    exact h3
  · intro id hid s s2 hs hs2 hcount
    have h1 := core_stored_of_found h hid hs
    have h3 := core_entry_of_once h2 hcount hs2
    rw [h1.1, h1.2] at h3
    exact h3

/-- Witness of C9: a first call on a text with an aggregate line and a line
of core 0 stores both readings. -/
theorem C9_stored_reading_is_last_parsed_witness :
    getCpuMetrics [0] "cpu 1 2 3 4 5 6 7\ncpu0 1 1 1 1 1 1 1" CpuState.fresh =
        some (⟨none, []⟩, ⟨28, 19, [(0, 7)], [(0, 5)]⟩) ∧
      ((28 : Nat) = (Sample.mk 28 19).total ∧ (19 : Nat) = (Sample.mk 28 19).nonIdle) ∧
      (mapFind [((0 : Int), 7)] 0 = some (Sample.mk 7 5).total ∧
        mapFind [((0 : Int), 5)] 0 = some (Sample.mk 7 5).nonIdle) :=
  have h : getCpuMetrics [0] "cpu 1 2 3 4 5 6 7\ncpu0 1 1 1 1 1 1 1" CpuState.fresh =
      some (⟨none, []⟩, ⟨28, 19, [(0, 7)], [(0, 5)]⟩) := by decide
  have t := C9_stored_reading_is_last_parsed [0] "cpu 1 2 3 4 5 6 7\ncpu0 1 1 1 1 1 1 1"
    CpuState.fresh ⟨28, 19, [(0, 7)], [(0, 5)]⟩ ⟨none, []⟩ h
  ⟨h, t.1 ⟨28, 19⟩ (by decide), t.2.1 0 (by decide) ⟨7, 5⟩ (by decide)⟩

/-! ## Claims about the emitted percentage -/

theorem usage_bounds {t n : Nat} (h : n ≤ t) : 0 ≤ usage t n ∧ usage t n ≤ 100 := by
  unfold usage
  split
  · rename_i ht
    have htq : (0 : ℚ) < (t : ℚ) := by exact_mod_cast ht
    have hnq : (n : ℚ) ≤ (t : ℚ) := by exact_mod_cast h
    have hn0 : (0 : ℚ) ≤ (n : ℚ) := by exact_mod_cast Nat.zero_le n
    constructor
    · positivity
    · rw [div_le_iff₀ htq]
      linarith
  · norm_num

theorem usage_zero_total (n : Nat) : usage 0 n = 0 := by
  simp [usage]

/-- C1 (amended): for an entity that has a stored previous reading (for the
aggregate: a stored previous total other than 0), when the difference of the
totals, taken modulo 2^64, is 0, the value emitted for the entity by a call of
`getCpuMetrics` that returns is exactly 0. -/
theorem C1_zero_when_total_unchanged (ids : List Int) (c : String) (st st' : CpuState)
    (d : CpuData) (h : getCpuMetrics ids c st = some (d, st')) :
    (∀ s, aggSample (getlines c) = some (some s) → st.prevTotal ≠ 0 →
      sub64 s.total st.prevTotal ≤ 0 → d.total = some 0) ∧
    (∀ id ∈ ids, ∀ s pt, coreSample (getlines c) id = some (some s) →
      mapFind st.prevCoreTotals id = some pt → sub64 s.total pt ≤ 0 →
      mapFind d.cores id = some 0) := by
  constructor
  · intro s hs hne hz
    have h1 := (agg_of_found h hs).1
    rw [if_pos hne, Nat.le_zero.mp hz, usage_zero_total] at h1
    exact h1
  · intro id hid s pt hs hpt hz
    have hpos : 0 < ids.count id := List.count_pos_iff.mpr hid
    by_cases hc : ids.count id = 1
    · have h1 := core_entry_of_once h hc hs
      rw [hpt, Option.map_some', Nat.le_zero.mp hz, usage_zero_total] at h1
      exact h1
    · exact core_entry_of_repeated h (by omega) hs

/-- Witness of C1: the aggregate and core 0 read the same totals as stored. -/
theorem C1_zero_when_total_unchanged_witness :
    getCpuMetrics [0] "cpu 1 2 3 4 5 6 7\ncpu0 1 1 1 1 1 1 1"
        ⟨28, 19, [(0, 7)], [(0, 5)]⟩ =
        some (⟨some 0, [(0, 0)]⟩, ⟨28, 19, [(0, 7)], [(0, 5)]⟩) ∧
      (some (0 : ℚ) = some 0 ∧ mapFind [((0 : Int), (0 : ℚ))] 0 = some 0) :=
  have h : getCpuMetrics [0] "cpu 1 2 3 4 5 6 7\ncpu0 1 1 1 1 1 1 1"
      ⟨28, 19, [(0, 7)], [(0, 5)]⟩ =
      some (⟨some 0, [(0, 0)]⟩, ⟨28, 19, [(0, 7)], [(0, 5)]⟩) := by decide
  have t := C1_zero_when_total_unchanged [0] "cpu 1 2 3 4 5 6 7\ncpu0 1 1 1 1 1 1 1"
    ⟨28, 19, [(0, 7)], [(0, 5)]⟩ ⟨28, 19, [(0, 7)], [(0, 5)]⟩ ⟨some 0, [(0, 0)]⟩ h
  ⟨h, t.1 ⟨28, 19⟩ (by decide) (by decide) (by decide),
    t.2 0 (by decide) ⟨7, 5⟩ 7 (by decide) (by decide) (by decide)⟩

/-- C1 (counterexample): from fresh statics, a first call reads the lines
`cpu 500 0 0 500 0 0 0` and `cpu0 500 0 0 500 0 0 0` (total 1000, nonIdle
500) and the next call reads smaller totals (100, nonIdle 50), as after a
reset of the counters. The differences wrap to `2^64 - 900` and `2^64 - 450`,
and the value emitted for the aggregate and for core 0 is not 0. -/
theorem C1_smaller_total_emits_nonzero :
    runCpu CpuState.fresh
        [([0], "cpu 500 0 0 500 0 0 0\ncpu0 500 0 0 500 0 0 0"),
         ([0], "cpu 50 0 0 50 0 0 0\ncpu0 50 0 0 50 0 0 0")] =
      some ([⟨none, []⟩,
          ⟨some (100 * 18446744073709551166 / 18446744073709550716),
            [(0, 100 * 18446744073709551166 / 18446744073709550716)]⟩],
        ⟨100, 50, [(0, 100)], [(0, 50)]⟩) ∧
    ((100 : Nat) ≤ 1000) ∧
    (100 * 18446744073709551166 / 18446744073709550716 : ℚ) ≠ 0 := by
  have ha1 : aggSample (getlines "cpu 500 0 0 500 0 0 0\ncpu0 500 0 0 500 0 0 0") =
      some (some ⟨1000, 500⟩) := by decide
  have hc1 : coreSample (getlines "cpu 500 0 0 500 0 0 0\ncpu0 500 0 0 500 0 0 0") 0 =
      some (some ⟨1000, 500⟩) := by decide
  have ha : aggSample (getlines "cpu 50 0 0 50 0 0 0\ncpu0 50 0 0 50 0 0 0") =
      some (some ⟨100, 50⟩) := by decide
  have hc : coreSample (getlines "cpu 50 0 0 50 0 0 0\ncpu0 50 0 0 50 0 0 0") 0 =
      some (some ⟨100, 50⟩) := by decide
  refine ⟨?_, by decide, by norm_num⟩
  simp [runCpu, getCpuMetrics, aggregateStep, coreStep, ha1, hc1, ha, hc, observeAggregate,
    observeCore, CpuData.empty, CpuState.fresh, mapFind, mapSet, usage, sub64, U64]

/-- C2 (amended): from fresh statics, a pass that reads the aggregate line
`cpu 100 0 100 700 50 0 50` stores total 1000 and nonIdle 250 and emits no
`total`; the next pass, reading `cpu 150 0 150 750 50 0 50`, stores total 1150
and nonIdle 350, so that totalDiff = 150 and nonIdleDiff = 100, and the
snapshot's `cpu.total` is 100 * 100 / 150 = 200/3 (66.67 when rounded). -/
theorem C2_second_pass_total (junk : Nat → Nat) (meminfoFile : String) :
    collectMetrics [⟨"cpu", [], []⟩] junk "cpu 100 0 100 700 50 0 50" meminfoFile
        CpuState.fresh =
      some (⟨some ⟨none, []⟩, none⟩, ⟨1000, 250, [], []⟩) ∧
    collectMetrics [⟨"cpu", [], []⟩] junk "cpu 150 0 150 750 50 0 50" meminfoFile
        ⟨1000, 250, [], []⟩ =
      some (⟨some ⟨some (200 / 3), []⟩, none⟩, ⟨1150, 350, [], []⟩) ∧
    sub64 1150 1000 = 150 ∧ sub64 350 250 = 100 ∧ usage 150 100 = 200 / 3 := by
  have h1 : aggSample (getlines "cpu 100 0 100 700 50 0 50") = some (some ⟨1000, 250⟩) := by
    decide
  have h2 : aggSample (getlines "cpu 150 0 150 750 50 0 50") = some (some ⟨1150, 350⟩) := by
    decide
  refine ⟨?_, ?_, by decide, by decide, by norm_num [usage]⟩
  · simp [collectMetrics, collectStep, getCpuMetrics, aggregateStep, h1, observeAggregate,
      CpuData.empty, CpuState.fresh]
  · simp [collectMetrics, collectStep, getCpuMetrics, aggregateStep, h2, observeAggregate,
      CpuData.empty, usage, sub64, U64]
    norm_num

/-- C2 (counterexample): from fresh statics, on the two lines of the claim,
the second pass has totalDiff 150, not 200, and its `cpu.total` is 200/3,
not 50. -/
theorem C2_total_is_not_fifty :
    ((collectMetrics [⟨"cpu", [], []⟩] (fun _ => 0) "cpu 100 0 100 700 50 0 50" ""
        CpuState.fresh).bind (fun r =>
      collectMetrics [⟨"cpu", [], []⟩] (fun _ => 0) "cpu 150 0 150 750 50 0 50" "" r.2)).map
        (fun r => r.1.cpu.map CpuData.total) =
      some (some (some (200 / 3))) ∧
    (200 / 3 : ℚ) ≠ 50 ∧ sub64 1150 1000 ≠ 200 := by
  have h1 : aggSample (getlines "cpu 100 0 100 700 50 0 50") = some (some ⟨1000, 250⟩) := by
    decide
  have h2 : aggSample (getlines "cpu 150 0 150 750 50 0 50") = some (some ⟨1150, 350⟩) := by
    decide
  refine ⟨?_, by norm_num, by decide⟩
  simp [collectMetrics, collectStep, getCpuMetrics, aggregateStep, h1, h2, observeAggregate,
    CpuData.empty, CpuState.fresh, usage, sub64, U64]
  norm_num

/-! ## Claims about sequences of calls -/

theorem getCpuMetrics_agg_changed {ids : List Int} {c : String} {st st' : CpuState}
    {d : CpuData} (h : getCpuMetrics ids c st = some (d, st'))
    (hne : st'.prevTotal ≠ st.prevTotal) : ∃ s, aggSample (getlines c) = some (some s) := by
  cases hs : aggSample (getlines c) with
  | none =>
    rw [getCpuMetrics_none st (Or.inl hs)] at h
    simp at h
  | some r =>
    cases r with
    | none => exact absurd (agg_untouched h hs).2.1 hne
    | some s => exact ⟨s, rfl⟩

theorem getCpuMetrics_core_changed {ids : List Int} {c : String} {st st' : CpuState}
    {d : CpuData} (h : getCpuMetrics ids c st = some (d, st')) {id : Int}
    (hne : mapFind st'.prevCoreTotals id ≠ mapFind st.prevCoreTotals id) :
    id ∈ ids ∧ ∃ s, coreSample (getlines c) id = some (some s) := by
  by_cases hid : id ∈ ids
  · refine ⟨hid, ?_⟩
    cases hs : coreSample (getlines c) id with
    | none =>
      rw [getCpuMetrics_none st (Or.inr ⟨id, hid, hs⟩)] at h
      simp at h
    | some r =>
      cases r with
      | none => exact absurd (core_untouched h (Or.inr hs)).2.1 hne
      | some s => exact ⟨s, rfl⟩
  · exact absurd (core_untouched h (Or.inl hid)).2.1 hne

theorem runCpu_agg_changed :
    ∀ (ps : List (List Int × String)) (st0 st : CpuState) (outs : List CpuData),
      runCpu st0 ps = some (outs, st) → st.prevTotal ≠ st0.prevTotal →
      ∃ p ∈ ps, ∃ s, aggSample (getlines p.2) = some (some s) := by
  intro ps
  induction ps with
  | nil =>
    intro st0 st outs h hne
    simp [runCpu] at h
    exact absurd (by rw [h.2]) hne
  | cons p ps ih =>
    intro st0 st outs h hne
    simp only [runCpu] at h
    rcases Option.bind_eq_some.mp h with ⟨⟨d1, st1⟩, h1, hrest⟩
    rcases Option.map_eq_some'.mp hrest with ⟨⟨outs2, st2⟩, h2, heq⟩
    simp only [Prod.mk.injEq] at heq
    obtain ⟨-, rfl⟩ := heq
    by_cases hmid : st1.prevTotal = st0.prevTotal
    · rcases ih st1 st2 outs2 h2 (by rw [hmid]; exact hne) with ⟨q, hq, hs⟩
      exact ⟨q, List.mem_cons_of_mem p hq, hs⟩
    · exact ⟨p, List.mem_cons_self p ps, getCpuMetrics_agg_changed h1 hmid⟩

theorem runCpu_core_changed (id : Int) :
    ∀ (ps : List (List Int × String)) (st0 st : CpuState) (outs : List CpuData),
      runCpu st0 ps = some (outs, st) →
      mapFind st.prevCoreTotals id ≠ mapFind st0.prevCoreTotals id →
      ∃ p ∈ ps, id ∈ p.1 ∧ ∃ s, coreSample (getlines p.2) id = some (some s) := by
  intro ps
  induction ps with
  | nil =>
    intro st0 st outs h hne
    simp [runCpu] at h
    exact absurd (by rw [h.2]) hne
  | cons p ps ih =>
    intro st0 st outs h hne
    simp only [runCpu] at h
    rcases Option.bind_eq_some.mp h with ⟨⟨d1, st1⟩, h1, hrest⟩
    rcases Option.map_eq_some'.mp hrest with ⟨⟨outs2, st2⟩, h2, heq⟩
    simp only [Prod.mk.injEq] at heq
    obtain ⟨-, rfl⟩ := heq
    by_cases hmid : mapFind st1.prevCoreTotals id = mapFind st0.prevCoreTotals id
    · rcases ih st1 st2 outs2 h2 (by rw [hmid]; exact hne) with ⟨q, hq, hs⟩
      exact ⟨q, List.mem_cons_of_mem p hq, hs⟩
    · exact ⟨p, List.mem_cons_self p ps, getCpuMetrics_core_changed h1 hmid⟩

/-- C3 (amended): after any sequence of calls of `getCpuMetrics` from fresh
statics, the next call emits a percentage for the aggregate only if an earlier
call parsed an aggregate reading, and emits a percentage for a core id that it
requests at most once only if an earlier call requested that id and parsed a
reading for it. The first call that parses a reading of an entity (requested
at most once, for a core) emits no percentage for it and stores the reading. -/
theorem C3_percentage_needs_earlier_reading (ps : List (List Int × String))
    (outs : List CpuData) (st st' : CpuState) (ids : List Int) (c : String) (d : CpuData)
    (hrun : runCpu CpuState.fresh ps = some (outs, st))
    (h : getCpuMetrics ids c st = some (d, st')) :
    (∀ q, d.total = some q → ∃ p ∈ ps, ∃ s, aggSample (getlines p.2) = some (some s)) ∧
    (∀ id q, ids.count id ≤ 1 → mapFind d.cores id = some q →
      ∃ p ∈ ps, id ∈ p.1 ∧ ∃ s, coreSample (getlines p.2) id = some (some s)) ∧
    (∀ s, aggSample (getlines c) = some (some s) →
      (∀ p ∈ ps, ∀ s0, aggSample (getlines p.2) ≠ some (some s0)) →
      d.total = none ∧ st'.prevTotal = s.total ∧ st'.prevNonIdle = s.nonIdle) ∧
    (∀ id ∈ ids, ∀ s, coreSample (getlines c) id = some (some s) → ids.count id ≤ 1 →
      (∀ p ∈ ps, id ∈ p.1 → ∀ s0, coreSample (getlines p.2) id ≠ some (some s0)) →
      mapFind d.cores id = none ∧ mapFind st'.prevCoreTotals id = some s.total ∧
        mapFind st'.prevCoreNonIdles id = some s.nonIdle) := by
  have hagg : st.prevTotal ≠ 0 → ∃ p ∈ ps, ∃ s, aggSample (getlines p.2) = some (some s) :=
    fun hne => runCpu_agg_changed ps CpuState.fresh st outs hrun hne
  have hcore : ∀ id, mapFind st.prevCoreTotals id ≠ none →
      ∃ p ∈ ps, id ∈ p.1 ∧ ∃ s, coreSample (getlines p.2) id = some (some s) :=
    fun id hne => runCpu_core_changed id ps CpuState.fresh st outs hrun hne
  have hentry : ∀ id q, ids.count id ≤ 1 → mapFind d.cores id = some q →
      mapFind st.prevCoreTotals id ≠ none := by
    intro id q hcount hq hnone
    by_cases hid : id ∈ ids
    · have hc1 : ids.count id = 1 := by
        have := List.count_pos_iff.mpr hid
        omega
      cases hs : coreSample (getlines c) id with
      | none =>
        rw [getCpuMetrics_none st (Or.inr ⟨id, hid, hs⟩)] at h
        simp at h
      | some r =>
        cases r with
        | none =>
          rw [(core_untouched h (Or.inr hs)).1] at hq
          simp at hq
        | some s =>
          have h1 := core_entry_of_once h hc1 hs
          rw [hnone, hq] at h1
          simp at h1
    · rw [(core_untouched h (Or.inl hid)).1] at hq
      simp at hq
  refine ⟨?_, fun id q hcount hq => hcore id (hentry id q hcount hq), ?_, ?_⟩
  · intro q hq
    apply hagg
    intro hz
    cases hs : aggSample (getlines c) with
    | none =>
      rw [getCpuMetrics_none st (Or.inl hs)] at h
      simp at h
    | some r =>
      cases r with
      | none =>
        rw [(agg_untouched h hs).1] at hq
        simp at hq
      | some s =>
        have h1 := (agg_of_found h hs).1
        rw [hz, hq] at h1
        simp at h1
  · intro s hs hfirst
    have hz : st.prevTotal = 0 := by
      by_contra hne
      rcases hagg hne with ⟨p, hp, s0, hs0⟩
      exact hfirst p hp s0 hs0
    have h1 := agg_of_found h hs
    rw [hz] at h1
    simpa using h1
  · intro id hid s hs hcount hfirst
    have hstored := core_stored_of_found h hid hs
    refine ⟨?_, hstored⟩
    cases hq : mapFind d.cores id with
    | none => rfl
    | some q =>
      rcases hcore id (hentry id q hcount hq) with ⟨p, hp, hmem, s0, hs0⟩
      exact absurd hs0 (hfirst p hp hmem s0)

/-- Witness of C3: the second of two calls on an aggregate line and a line of
core 0 emits percentages, and the first call parsed both readings. -/
theorem C3_percentage_needs_earlier_reading_witness :
    (runCpu CpuState.fresh [([0], "cpu 1 2 3 4 5 6 7\ncpu0 1 1 1 1 1 1 1")] =
        some ([⟨none, []⟩], ⟨28, 19, [(0, 7)], [(0, 5)]⟩) ∧
      getCpuMetrics [0] "cpu 1 2 3 4 5 6 7\ncpu0 1 1 1 1 1 1 1"
          ⟨28, 19, [(0, 7)], [(0, 5)]⟩ =
        some (⟨some 0, [(0, 0)]⟩, ⟨28, 19, [(0, 7)], [(0, 5)]⟩)) ∧
      (∃ p ∈ [(([0] : List Int), "cpu 1 2 3 4 5 6 7\ncpu0 1 1 1 1 1 1 1")],
        ∃ s, aggSample (getlines p.2) = some (some s)) ∧
      (∃ p ∈ [(([0] : List Int), "cpu 1 2 3 4 5 6 7\ncpu0 1 1 1 1 1 1 1")],
        (0 : Int) ∈ p.1 ∧ ∃ s, coreSample (getlines p.2) 0 = some (some s)) :=
  have hrun : runCpu CpuState.fresh [([0], "cpu 1 2 3 4 5 6 7\ncpu0 1 1 1 1 1 1 1")] =
      some ([⟨none, []⟩], ⟨28, 19, [(0, 7)], [(0, 5)]⟩) := by decide
  have h : getCpuMetrics [0] "cpu 1 2 3 4 5 6 7\ncpu0 1 1 1 1 1 1 1"
      ⟨28, 19, [(0, 7)], [(0, 5)]⟩ =
      some (⟨some 0, [(0, 0)]⟩, ⟨28, 19, [(0, 7)], [(0, 5)]⟩) := by decide
  have t := C3_percentage_needs_earlier_reading
    [([0], "cpu 1 2 3 4 5 6 7\ncpu0 1 1 1 1 1 1 1")] [⟨none, []⟩]
    ⟨28, 19, [(0, 7)], [(0, 5)]⟩ ⟨28, 19, [(0, 7)], [(0, 5)]⟩ [0]
    "cpu 1 2 3 4 5 6 7\ncpu0 1 1 1 1 1 1 1" ⟨some 0, [(0, 0)]⟩ hrun h
  ⟨⟨hrun, h⟩, t.1 0 rfl, t.2.1 0 0 (by decide) (by decide)⟩

/-- C3 (counterexample): from fresh statics, the first call that requests
core 0 twice reads the line of core 0 twice; the second reading finds the
first one stored and emits the percentage 0 for core 0, although no earlier
call parsed a reading of core 0. -/
theorem C3_repeated_id_emits_in_first_call :
    getCpuMetrics [0, 0] "cpu 1 2 3 4 5 6 7\ncpu0 1 1 1 1 1 1 1" CpuState.fresh =
      some (⟨none, [(0, 0)]⟩, ⟨28, 19, [(0, 7)], [(0, 5)]⟩) ∧
    mapFind [((0 : Int), (0 : ℚ))] 0 = some 0 ∧
    runCpu CpuState.fresh [] = some ([], CpuState.fresh) := by
  refine ⟨by decide, by decide, rfl⟩

theorem usage_of_increase {pt pn t n : Nat} (ht : pt < t) (hn : pn ≤ n) (htU : t < U64)
    (hnU : n < U64) (hle : n - pn ≤ t - pt) :
    usage (sub64 t pt) (sub64 n pn) = 100 * ((n - pn : Nat) : ℚ) / ((t - pt : Nat) : ℚ) ∧
      0 ≤ usage (sub64 t pt) (sub64 n pn) ∧ usage (sub64 t pt) (sub64 n pn) ≤ 100 := by
  rw [sub64_of_le (Nat.le_of_lt ht) htU, sub64_of_le hn hnU]
  refine ⟨?_, usage_bounds hle⟩
  unfold usage
  rw [if_pos (by omega)]

/-- C4 (amended): for two successive calls of `getCpuMetrics` that return and
that both parse a reading of an entity, where the second total is larger than
the first, the second nonIdle is not smaller than the first, the increase of
nonIdle does not exceed the increase of total and, for the aggregate, the
first total is not 0: the second call emits a percentage for the entity, it
lies in [0, 100], and it is 100 * nonIdleDiff / totalDiff (for a core, when
the second call requests the core once). -/
theorem C4_percentage_within_bounds (ids1 ids2 : List Int) (c1 c2 : String)
    (st0 st1 st2 : CpuState) (d1 d2 : CpuData)
    (h1 : getCpuMetrics ids1 c1 st0 = some (d1, st1))
    (h2 : getCpuMetrics ids2 c2 st1 = some (d2, st2)) :
    (∀ p s, aggSample (getlines c1) = some (some p) →
      aggSample (getlines c2) = some (some s) → p.total ≠ 0 →
      p.total < s.total → p.nonIdle ≤ s.nonIdle →
      s.nonIdle - p.nonIdle ≤ s.total - p.total →
      ∃ q, d2.total = some q ∧ 0 ≤ q ∧ q ≤ 100 ∧
        q = 100 * ((s.nonIdle - p.nonIdle : Nat) : ℚ) / ((s.total - p.total : Nat) : ℚ)) ∧
    (∀ id ∈ ids1, id ∈ ids2 → ∀ p s, coreSample (getlines c1) id = some (some p) →
      coreSample (getlines c2) id = some (some s) →
      p.total < s.total → p.nonIdle ≤ s.nonIdle →
      s.nonIdle - p.nonIdle ≤ s.total - p.total →
      ∃ q, mapFind d2.cores id = some q ∧ 0 ≤ q ∧ q ≤ 100 ∧
        (ids2.count id = 1 →
          q = 100 * ((s.nonIdle - p.nonIdle : Nat) : ℚ) / ((s.total - p.total : Nat) : ℚ))) := by
  constructor
  · intro p s hp hs hne ht hn hle
    have hst := (agg_of_found h1 hp).2
    have hd := (agg_of_found h2 hs).1
    rw [hst.1, hst.2, if_pos hne] at hd
    have hu := usage_of_increase ht hn (aggSample_lt hs).1 (aggSample_lt hs).2 hle
    exact ⟨_, hd, hu.2.1, hu.2.2, hu.1⟩
  · intro id hid1 hid2 p s hp hs ht hn hle
    have hst := core_stored_of_found h1 hid1 hp
    have hpos : 0 < ids2.count id := List.count_pos_iff.mpr hid2
    by_cases hc : ids2.count id = 1
    · have hd := core_entry_of_once h2 hc hs
      rw [hst.1, hst.2] at hd
      simp only [Option.map_some', Option.getD_some] at hd
      have hu := usage_of_increase ht hn (coreSample_lt hs).1 (coreSample_lt hs).2 hle
      exact ⟨_, hd, hu.2.1, hu.2.2, fun _ => hu.1⟩
    · have hd := core_entry_of_repeated h2 (by omega) hs
      exact ⟨0, hd, le_refl 0, by norm_num, fun h => absurd h hc⟩

/-- Witness of C4: two calls on growing counters of the aggregate and of
core 0; the second call emits 500/7 for both. -/
theorem C4_percentage_within_bounds_witness :
    (getCpuMetrics [0] "cpu 1 2 3 4 5 6 7\ncpu0 1 1 1 1 1 1 1" CpuState.fresh =
        some (⟨none, []⟩, ⟨28, 19, [(0, 7)], [(0, 5)]⟩) ∧
      getCpuMetrics [0] "cpu 2 3 4 5 6 7 8\ncpu0 2 2 2 2 2 2 2"
          ⟨28, 19, [(0, 7)], [(0, 5)]⟩ =
        some (⟨some (500 / 7), [(0, 500 / 7)]⟩, ⟨35, 24, [(0, 14)], [(0, 10)]⟩)) ∧
      (∃ q : ℚ, some (500 / 7 : ℚ) = some q ∧ 0 ≤ q ∧ q ≤ 100 ∧
        q = 100 * (((Sample.mk 35 24).nonIdle - (Sample.mk 28 19).nonIdle : Nat) : ℚ) /
          (((Sample.mk 35 24).total - (Sample.mk 28 19).total : Nat) : ℚ)) ∧
      (∃ q : ℚ, mapFind [((0 : Int), (500 / 7 : ℚ))] 0 = some q ∧ 0 ≤ q ∧ q ≤ 100 ∧
        (List.count (0 : Int) [0] = 1 →
          q = 100 * (((Sample.mk 14 10).nonIdle - (Sample.mk 7 5).nonIdle : Nat) : ℚ) /
            (((Sample.mk 14 10).total - (Sample.mk 7 5).total : Nat) : ℚ))) :=
  have h1 : getCpuMetrics [0] "cpu 1 2 3 4 5 6 7\ncpu0 1 1 1 1 1 1 1" CpuState.fresh =
      some (⟨none, []⟩, ⟨28, 19, [(0, 7)], [(0, 5)]⟩) := by decide
  have ha : aggSample (getlines "cpu 2 3 4 5 6 7 8\ncpu0 2 2 2 2 2 2 2") =
      some (some ⟨35, 24⟩) := by decide
  have hc : coreSample (getlines "cpu 2 3 4 5 6 7 8\ncpu0 2 2 2 2 2 2 2") 0 =
      some (some ⟨14, 10⟩) := by decide
  have h2 : getCpuMetrics [0] "cpu 2 3 4 5 6 7 8\ncpu0 2 2 2 2 2 2 2"
      ⟨28, 19, [(0, 7)], [(0, 5)]⟩ =
      some (⟨some (500 / 7), [(0, 500 / 7)]⟩, ⟨35, 24, [(0, 14)], [(0, 10)]⟩) := by
    simp [getCpuMetrics, aggregateStep, coreStep, ha, hc, observeAggregate, observeCore,
      CpuData.empty, mapFind, mapSet, usage, sub64, U64]
    norm_num
  have t := C4_percentage_within_bounds [0] [0] "cpu 1 2 3 4 5 6 7\ncpu0 1 1 1 1 1 1 1"
    "cpu 2 3 4 5 6 7 8\ncpu0 2 2 2 2 2 2 2" CpuState.fresh ⟨28, 19, [(0, 7)], [(0, 5)]⟩
    ⟨35, 24, [(0, 14)], [(0, 10)]⟩ ⟨none, []⟩ ⟨some (500 / 7), [(0, 500 / 7)]⟩ h1 h2
  ⟨⟨h1, h2⟩,
    t.1 ⟨28, 19⟩ ⟨35, 24⟩ (by decide) ha (by decide) (by decide) (by decide) (by decide),
    t.2 0 (by decide) (by decide) ⟨7, 5⟩ ⟨14, 10⟩ (by decide) hc (by decide) (by decide)
      (by decide)⟩

/-- C4 (counterexample): the aggregate line `cpu 10 0 0 90 0 0 0` (total 100,
nonIdle 10) is followed by `cpu 50 0 0 51 0 0 0` (total 101, nonIdle 50): both
numbers of the second reading are larger, and the percentage emitted is
100 * 40 / 1 = 4000, outside [0, 100]. -/
theorem C4_larger_pair_exceeds_hundred :
    runCpu CpuState.fresh [([], "cpu 10 0 0 90 0 0 0"), ([], "cpu 50 0 0 51 0 0 0")] =
      some ([⟨none, []⟩, ⟨some 4000, []⟩], ⟨101, 50, [], []⟩) ∧
    ((100 : Nat) < 101 ∧ (10 : Nat) < 50) ∧ ¬ ((4000 : ℚ) ≤ 100) := by
  have h1 : aggSample (getlines "cpu 10 0 0 90 0 0 0") = some (some ⟨100, 10⟩) := by decide
  have h2 : aggSample (getlines "cpu 50 0 0 51 0 0 0") = some (some ⟨101, 50⟩) := by decide
  refine ⟨?_, by decide, by norm_num⟩
  simp [runCpu, getCpuMetrics, aggregateStep, h1, h2, observeAggregate, CpuData.empty,
    CpuState.fresh, usage, sub64, U64]
  norm_num

/-! ## Claims about lines that cannot be read -/

theorem parseCounters_short {toks : List (List Char)} (h : toks.length < 8) :
    parseCounters toks = some none := by
  unfold parseCounters
  rw [if_neg (by omega)]
  rfl

/-- C5 (evaluation at the failing input): the text has an aggregate line and
a line of core 10, and no line of core 1. A call that requests core 1 reads
the line of core 10 for it, because `cpu10` starts with `cpu1`: the first call
creates a stored reading for core 1, and the second call emits an entry for
core 1. A call that requests no core leaves the maps empty. -/
theorem C5_absent_core_reads_line_of_core_ten :
    (getlines "cpu 1 2 3 4 5 6 7\ncpu10 1 1 1 1 1 1 1").map (fun l => (tokens l).head?) =
      [some "cpu".data, some "cpu10".data] ∧
    getCpuMetrics [1] "cpu 1 2 3 4 5 6 7\ncpu10 1 1 1 1 1 1 1" CpuState.fresh =
      some (⟨none, []⟩, ⟨28, 19, [(1, 7)], [(1, 5)]⟩) ∧
    getCpuMetrics [1] "cpu 2 3 4 5 6 7 8\ncpu10 2 2 2 2 2 2 2" ⟨28, 19, [(1, 7)], [(1, 5)]⟩ =
      some (⟨some (500 / 7), [(1, 500 / 7)]⟩, ⟨35, 24, [(1, 14)], [(1, 10)]⟩) ∧
    getCpuMetrics [] "cpu 1 2 3 4 5 6 7\ncpu10 1 1 1 1 1 1 1" CpuState.fresh =
      some (⟨none, []⟩, ⟨28, 19, [], []⟩) := by
  have ha : aggSample (getlines "cpu 2 3 4 5 6 7 8\ncpu10 2 2 2 2 2 2 2") =
      some (some ⟨35, 24⟩) := by decide
  have hc : coreSample (getlines "cpu 2 3 4 5 6 7 8\ncpu10 2 2 2 2 2 2 2") 1 =
      some (some ⟨14, 10⟩) := by decide
  refine ⟨by decide, by decide, ?_, by decide⟩
  simp [getCpuMetrics, aggregateStep, coreStep, ha, hc, observeAggregate, observeCore,
    CpuData.empty, mapFind, mapSet, usage, sub64, U64]
  norm_num

/-- C7 (evaluation at the failing input): an aggregate line, or the line of a
requested core, with eight tokens of which one is not a number makes
`std::stoull` throw, and the exception leaves `getCpuMetrics`: no value is
returned, also not for the entities whose lines are well formed. A line with
fewer than eight tokens is skipped without an error. -/
theorem C7_non_numeric_field_throws :
    getCpuMetrics [] "cpu a b c d e f g" CpuState.fresh = none ∧
    getCpuMetrics [0] "cpu 1 2 3 4 5 6 7\ncpu0 1 2 x 4 5 6 7" CpuState.fresh = none ∧
    getCpuMetrics [0] "cpu 1 2 3\ncpu0 1 1 1 1 1 1 1" CpuState.fresh =
      some (⟨none, []⟩, ⟨0, 0, [(0, 7)], [(0, 5)]⟩) := by
  refine ⟨by decide, by decide, by decide⟩

/-! ## Claims about the memory metrics -/

theorem extractULL_lt (junk : Nat) (rest : List Char) : extractULL junk rest < U64 := by
  have hU : 0 < U64 := by unfold U64; norm_num
  unfold extractULL
  split
  · exact Nat.mod_lt _ hU
  · split
    · exact hU
    · split
      · omega
      · split
        · exact sub64_lt _ _
        · omega

theorem extractULL_junk (j j' : Nat) {rest : List Char}
    (h : (rest.dropWhile isSpace).isEmpty = false) : extractULL j rest = extractULL j' rest := by
  unfold extractULL
  simp [h]

theorem parseMemLine_junk (j j' : Nat) {line : List Char} (h : hasValueField line = true) :
    parseMemLine j line = parseMemLine j' line := by
  unfold hasValueField at h
  unfold parseMemLine
  rw [extractULL_junk j j' (by simpa using h)]

theorem readMemValues_junk (junk junk' : Nat → Nat) :
    ∀ (lines : List (List Char)) (i i' : Nat) (m : List (String × Nat)),
      (∀ line ∈ lines, hasValueField line = true) →
      readMemValues junk i lines m = readMemValues junk' i' lines m := by
  intro lines
  induction lines with
  | nil =>
    intro i i' m _
    rfl
  | cons line rest ih =>
    intro i i' m h
    simp only [readMemValues]
    rw [parseMemLine_junk (junk i) (junk' i') (h line (List.mem_cons_self line rest))]
    exact ih (i + 1) (i' + 1) _ (fun l hl => h l (List.mem_cons_of_mem line hl))

theorem getMemoryMetrics_junk (junk junk' : Nat → Nat) (specs : List String) {c : String}
    (h : (getlines c).all hasValueField = true) :
    getMemoryMetrics junk specs c = getMemoryMetrics junk' specs c := by
  unfold getMemoryMetrics memValues
  rw [readMemValues_junk junk junk' (getlines c) 0 0 [] (by simpa using h)]

theorem mapFind_mapSet_cases {κ ν : Type} [DecidableEq κ] (m : List (κ × ν)) (k j : κ) (v : ν) :
    mapFind (mapSet m k v) j = if k = j then some v else mapFind m j := by
  by_cases h : k = j
  · subst h
    simp [mapFind_mapSet_self]
  · simp [h, mapFind_mapSet_ne m v (fun e => h e.symm)]

theorem readMemValues_lt (junk : Nat → Nat) :
    ∀ (lines : List (List Char)) (i : Nat) (m : List (String × Nat)),
      (∀ k v, mapFind m k = some v → v < U64) →
      ∀ k v, mapFind (readMemValues junk i lines m) k = some v → v < U64 := by
  intro lines
  induction lines with
  | nil =>
    intro i m hm k v h
    exact hm k v h
  | cons line rest ih =>
    intro i m hm k v h
    simp only [readMemValues] at h
    refine ih (i + 1) _ ?_ k v h
    intro k' v' h'
    rw [mapFind_mapSet_cases] at h'
    split at h'
    · have := Option.some.inj h'
      subst this
      exact extractULL_lt _ _
    · exact hm k' v' h'

theorem memValues_lt (junk : Nat → Nat) (c : String) {k : String} {v : Nat}
    (h : mapFind (memValues junk c) k = some v) : v < U64 :=
  readMemValues_lt junk (getlines c) 0 [] (fun _ _ h0 => by simp [mapFind] at h0) k v h

theorem specStep_eq (mv md : List (String × Nat)) (spec : String) :
    specStep mv md spec =
      match specValue mv spec with
      | some v => mapSet md spec v
      | none => md := by
  unfold specStep specValue backingKey passThrough
  by_cases h1 : spec = "used"
  · subst h1
    simp only [if_true]
    cases mapFind mv "MemTotal" <;> cases mapFind mv "MemFree" <;> rfl
  · simp only [h1, if_false]
    by_cases h2 : spec = "free"
    · subst h2
      simp only [if_true, Option.some_bind]
    · simp only [h2, if_false]
      by_cases h3 : spec = "available"
      · subst h3
        simp only [if_true, Option.some_bind]
      · simp only [h3, if_false]
        by_cases h4 : spec = "cached"
        · subst h4
          simp only [if_true, Option.some_bind]
        · simp only [h4, if_false]
          by_cases h5 : spec = "buffers"
          · subst h5
            simp only [if_true, Option.some_bind]
          · simp only [h5, if_false, Option.none_bind]

theorem foldl_specStep_find (mv : List (String × Nat)) (k : String) :
    ∀ (specs : List String) (md : List (String × Nat)),
      mapFind (specs.foldl (specStep mv) md) k =
        if k ∈ specs then (specValue mv k).orElse (fun _ => mapFind md k) else mapFind md k := by
  intro specs
  induction specs with
  | nil =>
    intro md
    simp
  | cons spec specs ih =>
    intro md
    rw [List.foldl_cons, ih, specStep_eq]
    by_cases hk : spec = k
    · subst hk
      cases hv : specValue mv spec with
      | none => simp
      | some v => simp [mapFind_mapSet_self]
    · have hk2 : ¬ k = spec := fun e => hk e.symm
      cases hv : specValue mv spec with
      | none => simp [hk2]
      | some v => simp [hk2, mapFind_mapSet_ne md v hk2]

/-- The entry of a key in the value returned by `getMemoryMetrics`. -/
theorem getMemoryMetrics_find (junk : Nat → Nat) (specs : List String) (c : String)
    (k : String) :
    mapFind (getMemoryMetrics junk specs c) k =
      if k ∈ specs then specValue (memValues junk c) k else none := by
  unfold getMemoryMetrics
  rw [foldl_specStep_find]
  cases specValue (memValues junk c) k <;> simp [mapFind]

/-- C6: when `used` is requested, the value returned by `getMemoryMetrics`
has the key `used` exactly when the keys `MemTotal` and `MemFree` both occur
in the text, and its value is then the difference MemTotal - MemFree of the
values read, as `unsigned long long` (the plain difference when MemFree does
not exceed MemTotal), with no conversion; on the two lines of the example the
result is `used` 12000000 and `free` 4000000. -/
theorem C6_used_is_total_minus_free (junk : Nat → Nat) (specs : List String) (c : String)
    (h : "used" ∈ specs) :
    (∀ t f, mapFind (memValues junk c) "MemTotal" = some t →
      mapFind (memValues junk c) "MemFree" = some f →
      mapFind (getMemoryMetrics junk specs c) "used" = some (sub64 t f) ∧
      (f ≤ t → mapFind (getMemoryMetrics junk specs c) "used" = some (t - f))) ∧
    (mapFind (memValues junk c) "MemTotal" = none ∨
        mapFind (memValues junk c) "MemFree" = none →
      mapFind (getMemoryMetrics junk specs c) "used" = none) ∧
    getMemoryMetrics junk ["used", "free"] "MemTotal: 16000000 kB\nMemFree: 4000000 kB" =
      [("free", 4000000), ("used", 12000000)] := by
  have hfind := getMemoryMetrics_find junk specs c "used"
  rw [if_pos h] at hfind
  refine ⟨?_, ?_, ?_⟩
  · intro t f ht hf
    have hv : mapFind (getMemoryMetrics junk specs c) "used" = some (sub64 t f) := by
      rw [hfind]
      simp [specValue, ht, hf]
    refine ⟨hv, fun hle => ?_⟩
    rw [hv, sub64_of_le hle (memValues_lt junk c ht)]
  · intro hnone
    rw [hfind]
    rcases hnone with hn | hn
    · simp [specValue, hn]
    · cases ht : mapFind (memValues junk c) "MemTotal" <;> simp [specValue, hn, ht]
  · rw [getMemoryMetrics_junk junk (fun _ => 0) _ (by decide)]
    decide

/-- Witness of C6: the example of the claim, with `used` requested. -/
theorem C6_used_is_total_minus_free_witness :
    "used" ∈ ["used", "free"] ∧
      mapFind (getMemoryMetrics (fun _ => 0) ["used", "free"]
        "MemTotal: 16000000 kB\nMemFree: 4000000 kB") "used" = some (16000000 - 4000000) :=
  ⟨by decide,
    ((C6_used_is_total_minus_free (fun _ => 0) ["used", "free"]
      "MemTotal: 16000000 kB\nMemFree: 4000000 kB" (by decide)).1 16000000 4000000
      (by decide) (by decide)).2 (by decide)⟩

theorem specValue_some_mem {mv : List (String × Nat)} {k : String} {v : Nat}
    (h : specValue mv k = some v) :
    k ∈ ["used", "free", "available", "cached", "buffers"] := by
  unfold specValue backingKey at h
  by_cases h1 : k = "used"
  · simp [h1]
  · by_cases h2 : k = "free"
    · simp [h2]
    · by_cases h3 : k = "available"
      · simp [h3]
      · by_cases h4 : k = "cached"
        · simp [h4]
        · by_cases h5 : k = "buffers"
          · simp [h5]
          · simp [h1, h2, h3, h4, h5] at h

/-- C10: every key of the value returned by `getMemoryMetrics` is one of the
requested specs and one of `used`, `free`, `available`, `cached`, `buffers`;
a requested spec whose backing key does not occur in the text (for `used`:
one of `MemTotal`, `MemFree`) gets no key. -/
theorem C10_memory_keys_are_requested (junk : Nat → Nat) (specs : List String) (c : String) :
    (∀ k ∈ (getMemoryMetrics junk specs c).map Prod.fst,
      k ∈ specs ∧ k ∈ ["used", "free", "available", "cached", "buffers"]) ∧
    (∀ spec key, backingKey spec = some key → mapFind (memValues junk c) key = none →
      spec ∉ (getMemoryMetrics junk specs c).map Prod.fst) ∧
    (mapFind (memValues junk c) "MemTotal" = none ∨
        mapFind (memValues junk c) "MemFree" = none →
      "used" ∉ (getMemoryMetrics junk specs c).map Prod.fst) := by
  refine ⟨?_, ?_, ?_⟩
  · intro k hk
    have hsome := (mapFind_isSome_iff _ k).mpr hk
    rw [getMemoryMetrics_find] at hsome
    by_cases hmem : k ∈ specs
    · rw [if_pos hmem] at hsome
      rcases Option.isSome_iff_exists.mp hsome with ⟨v, hv⟩
      exact ⟨hmem, specValue_some_mem hv⟩
    · rw [if_neg hmem] at hsome
      simp at hsome
  · intro spec key hb hnone hk
    have hsome := (mapFind_isSome_iff _ spec).mpr hk
    rw [getMemoryMetrics_find] at hsome
    have hne : spec ≠ "used" := by
      intro e
      subst e
      simp [backingKey] at hb
    have hval : specValue (memValues junk c) spec = none := by
      unfold specValue
      rw [if_neg hne, hb]
      exact hnone
    rw [hval] at hsome
    simp at hsome
  · intro hnone hk
    have hsome := (mapFind_isSome_iff _ "used").mpr hk
    rw [getMemoryMetrics_find] at hsome
    have hval : specValue (memValues junk c) "used" = none := by
      rcases hnone with hn | hn
      · simp [specValue, hn]
      · cases ht : mapFind (memValues junk c) "MemTotal" <;> simp [specValue, hn, ht]
    rw [hval] at hsome
    simp at hsome

/-- Witness of C10: `cached` and `swap` are requested from a text without
the key `Cached`; only the key `free` is returned. -/
theorem C10_memory_keys_are_requested_witness :
    (getMemoryMetrics (fun _ => 0) ["cached", "free", "swap"]
        "MemTotal: 16000000 kB\nMemFree: 4000000 kB\nSwapTotal: 5 kB").map Prod.fst =
        ["free"] ∧
      "cached" ∉ (getMemoryMetrics (fun _ => 0) ["cached", "free", "swap"]
        "MemTotal: 16000000 kB\nMemFree: 4000000 kB\nSwapTotal: 5 kB").map Prod.fst :=
  ⟨by decide,
    (C10_memory_keys_are_requested (fun _ => 0) ["cached", "free", "swap"]
      "MemTotal: 16000000 kB\nMemFree: 4000000 kB\nSwapTotal: 5 kB").2.1 "cached" "Cached"
      (by decide) (by decide)⟩

/-! ## Claims about the configuration -/

theorem periodValue_of_missing {config : Json}
    (h : (config.member "settings").bind (fun s => s.member "period") = none) :
    (periodValue config).bind Json.getInt = none := by
  unfold periodValue
  cases config with
  | obj o =>
    simp only [Json.member, Json.index] at h ⊢
    cases hs : mapFind o "settings" with
    | none => rfl
    | some sv =>
      rw [hs] at h
      simp only [Option.some_bind] at h
      cases sv with
      | obj o2 =>
        simp only [Json.member] at h
        simp [Json.index, h, Json.getInt]
      | null => rfl
      | bool b => rfl
      | num n => rfl
      | str t => rfl
      | arr a => rfl
  | null => rfl
  | bool b => rfl
  | num n => rfl
  | str t => rfl
  | arr a => rfl

/-- C8 (amended): `loadConfig` fails whenever `settings.period` is missing
from the document; whenever it succeeds, the stored `period_` is the integer
value of `settings.period`, which is not checked for its sign. -/
theorem C8_period_is_stored_unchecked (config : Json) :
    ((config.member "settings").bind (fun s => s.member "period") = none →
      loadConfig config = none) ∧
    (∀ cfg, loadConfig config = some cfg →
      ∃ v, periodValue config = some v ∧ v.getInt = some cfg.period) := by
  constructor
  · intro h
    have hp := periodValue_of_missing h
    unfold loadConfig
    cases hv : periodValue config with
    | none => rfl
    | some v =>
      rw [hv] at hp
      simp only [Option.some_bind] at hp
      simp [hp]
  · intro cfg h
    unfold loadConfig at h
    simp only [Option.bind_eq_bind, Option.pure_def] at h
    rcases Option.bind_eq_some.mp h with ⟨v, hv, h⟩
    rcases Option.bind_eq_some.mp h with ⟨n, hn, h⟩
    rcases Option.bind_eq_some.mp h with ⟨ms, -, h⟩
    rcases Option.bind_eq_some.mp h with ⟨ml, -, h⟩
    rcases Option.bind_eq_some.mp h with ⟨os, -, h⟩
    rcases Option.bind_eq_some.mp h with ⟨ol, -, h⟩
    have hc := Option.some.inj h
    subst hc
    exact ⟨v, hv, hn⟩

/-- Witness of C8: a document without `settings` is refused, and a document
with period 5 is loaded with `period_` 5. -/
theorem C8_period_is_stored_unchecked_witness :
    loadConfig (.obj [("metrics", .arr []), ("outputs", .arr [])]) = none ∧
      (∃ v, periodValue (.obj [("settings", .obj [("period", .num 5)]),
          ("metrics", .arr []), ("outputs", .arr [])]) = some v ∧
        v.getInt = some (Config.mk 5 [] []).period) :=
  ⟨(C8_period_is_stored_unchecked (.obj [("metrics", .arr []), ("outputs", .arr [])])).1
      rfl,
    (C8_period_is_stored_unchecked (.obj [("settings", .obj [("period", .num 5)]),
      ("metrics", .arr []), ("outputs", .arr [])])).2 ⟨5, [], []⟩ (by decide)⟩

/-- C8 (counterexample): a document whose `settings.period` is 0, and one
whose period is -5, are loaded without an error, and `period_` is 0 and -5. -/
theorem C8_zero_and_negative_period_accepted :
    loadConfig (.obj [("settings", .obj [("period", .num 0)]),
        ("metrics", .arr [.obj [("type", .str "cpu"), ("ids", .arr [.num 0, .num 1])]]),
        ("outputs", .arr [.obj [("type", .str "console")]])]) =
      some ⟨0, [⟨"cpu", [0, 1], []⟩], [⟨"console", ""⟩]⟩ ∧
    loadConfig (.obj [("settings", .obj [("period", .num (-5))]),
        ("metrics", .arr []), ("outputs", .arr [])]) = some ⟨-5, [], []⟩ ∧
    ¬ ((0 : Int) < 0) ∧ ¬ ((0 : Int) < -5) := by
  refine ⟨by decide, by decide, by decide, by decide⟩

end SystemMonitor
